import Mathlib

/-
  Verification of the glyph geometry and typesetting pipeline.

  Shallow embedding of the source:
  * `FontGeom`      — the path representation, the Path Transformer
                      (`transformPath`, src/unnamed/part_003) and the
                      Bounding-Box Evaluator (`computeBoundingBox`).
  * `GlyphAutoTrace`— the Raster Tracer (`tracePNGtoSVG`,
                      src/GlyphAutoTrace.ts, run-of-ink-pixels version).
  * `SpacingDebug`  — the Typesetting Engine (src/SpacingDebugger.tsx).
  * `FontMakerCore` — the Font Assembler of src/unnamed/part_001
                      (`glyphToOpenType`, `exportFont`).
  * `FontMakerTsx`  — the Font Assembler snapshot of src/FontMaker.tsx
                      (explicit `.notdef` placeholder).

  JavaScript numbers are modelled as real numbers where trigonometry is
  involved and as rationals in the purely arithmetic Typesetting Engine.
-/

namespace FontGeom

/-- Drawing commands of an outline path, after `opentype.Path.fromSVG`:
move / line / cubic curve (two control points) / quadratic curve (one
control point) / close.  Mirrors the command objects whose fields are
`x,y`, `x1,y1`, `x2,y2` in src/unnamed/part_003. -/
inductive PathCmd where
  | move (x y : ℝ)
  | line (x y : ℝ)
  | curve (x1 y1 x2 y2 x y : ℝ)
  | quad (x1 y1 x y : ℝ)
  | close

/-- An Outline is an ordered list of drawing commands. -/
abbrev Outline := List PathCmd

/-- The closed style-variant set, selected at export time. -/
inductive FontStyle where
  | regular
  | bold
  | italic
  | boldItalic
deriving DecidableEq

/-- `style.includes("Bold")` on the style name string. -/
def FontStyle.hasBold : FontStyle → Bool
  | .bold => true
  | .boldItalic => true
  | _ => false

/-- `style.includes("Italic")` on the style name string. -/
def FontStyle.hasItalic : FontStyle → Bool
  | .italic => true
  | .boldItalic => true
  | _ => false

/-- `GlyphData` of src/FontMaker.tsx and src/unnamed/part_001 (and the
`GlyphTransform` subset used by src/unnamed/part_003).  The `svg` field
holds the parsed outline: `extractPathData` / `buildPathFromData` parse
the stored SVG string through the DOM and `opentype.Path.fromSVG`, which
is browser and library code; the embedding works with the resulting
command list directly. -/
structure GlyphData where
  svg : Option Outline
  scale : ℝ
  rotate : ℝ
  x : ℝ
  y : ℝ
  advance : ℝ
  leftBearing : ℝ
  rightBearing : ℝ
  lockCapHeight : Bool := false
  lockXHeight : Bool := false
  normalizeCenter : Bool := false

/-- The per-point mapping `applyPoint` inside `transformPath`
(src/unnamed/part_003 lines 54-72).  The source guards the shear with
`italicShear !== 0`; since both branches coincide when the shear is `0`,
that guard holds exactly when the style includes Italic, which is the
form used here (it avoids deciding equality of real numbers). -/
noncomputable def applyPoint (g : GlyphData) (style : FontStyle) (x y : ℝ) : ℝ × ℝ :=
  let rad := g.rotate * Real.pi / 180
  let styleScale : ℝ := if style.hasBold then 1.12 else 1
  let italicShear : ℝ := if style.hasItalic then Real.tan (12 * Real.pi / 180) else 0
  let sx := g.scale * styleScale
  let sy := g.scale * styleScale
  let c := Real.cos rad
  let s := Real.sin rad
  let nx := x * sx
  let ny := y * sy
  let nx2 := if style.hasItalic then nx + ny * italicShear else nx
  (nx2 * c - ny * s + g.x, nx2 * s + ny * c + g.y)

/-- The per-command body of the `forEach` in `transformPath`: every
coordinate-bearing field (`x,y`, `x1,y1`, `x2,y2`) goes through
`applyPoint`; a command without coordinates is copied unchanged. -/
noncomputable def transformCmd (g : GlyphData) (style : FontStyle) : PathCmd → PathCmd
  | .move x y =>
      let p := applyPoint g style x y
      .move p.1 p.2
  | .line x y =>
      let p := applyPoint g style x y
      .line p.1 p.2
  | .curve x1 y1 x2 y2 x y =>
      let p1 := applyPoint g style x1 y1
      let p2 := applyPoint g style x2 y2
      let p := applyPoint g style x y
      .curve p1.1 p1.2 p2.1 p2.2 p.1 p.2
  | .quad x1 y1 x y =>
      let p1 := applyPoint g style x1 y1
      let p := applyPoint g style x y
      .quad p1.1 p1.2 p.1 p.2
  | .close => .close

/-- `transformPath` (src/unnamed/part_003 lines 49-95): a new outline
with every command remapped. -/
noncomputable def transformPath (path : Outline) (g : GlyphData) (style : FontStyle) : Outline :=
  path.map (transformCmd g style)

/-! Specification-side description of the per-point mapping, written
from the words of §4.2: scale, then shear, then rotate, then
translate. -/

/-- Spec §4.2 step 1 factor: `1.12` if the style includes Bold, else `1`. -/
noncomputable def styleScaleFactor (style : FontStyle) : ℝ :=
  if style.hasBold then 1.12 else 1

/-- Spec §4.2 step 1: multiply both axes by `glyph.scale × styleScaleFactor`. -/
noncomputable def specScalePoint (g : GlyphData) (style : FontStyle) (p : ℝ × ℝ) : ℝ × ℝ :=
  (p.1 * (g.scale * styleScaleFactor style), p.2 * (g.scale * styleScaleFactor style))

/-- Spec §4.2 step 2: if the style includes Italic, `x' = x + y·tan 12°`. -/
noncomputable def specShearPoint (style : FontStyle) (p : ℝ × ℝ) : ℝ × ℝ :=
  if style.hasItalic then (p.1 + p.2 * Real.tan (12 * Real.pi / 180), p.2) else p

/-- Spec §4.2 step 3: rotate by `glyph.rotate` degrees about the origin. -/
noncomputable def specRotatePoint (g : GlyphData) (p : ℝ × ℝ) : ℝ × ℝ :=
  (p.1 * Real.cos (g.rotate * Real.pi / 180) - p.2 * Real.sin (g.rotate * Real.pi / 180),
   p.1 * Real.sin (g.rotate * Real.pi / 180) + p.2 * Real.cos (g.rotate * Real.pi / 180))

/-- Spec §4.2 step 4: add `(glyph.x, glyph.y)`. -/
noncomputable def specTranslatePoint (g : GlyphData) (p : ℝ × ℝ) : ℝ × ℝ :=
  (p.1 + g.x, p.2 + g.y)

/-- The full spec-side per-point sequence: scale, shear, rotate, translate. -/
noncomputable def specPoint (g : GlyphData) (style : FontStyle) (p : ℝ × ℝ) : ℝ × ℝ :=
  specTranslatePoint g (specRotatePoint g (specShearPoint style (specScalePoint g style p)))

/-- Apply a point mapping to every coordinate-bearing field of a command,
independently per point. -/
noncomputable def mapCmdCoords (f : ℝ × ℝ → ℝ × ℝ) : PathCmd → PathCmd
  | .move x y => .move (f (x, y)).1 (f (x, y)).2
  | .line x y => .line (f (x, y)).1 (f (x, y)).2
  | .curve x1 y1 x2 y2 x y =>
      .curve (f (x1, y1)).1 (f (x1, y1)).2 (f (x2, y2)).1 (f (x2, y2)).2 (f (x, y)).1 (f (x, y)).2
  | .quad x1 y1 x y =>
      .quad (f (x1, y1)).1 (f (x1, y1)).2 (f (x, y)).1 (f (x, y)).2
  | .close => .close

/-- Command kinds, for structure-preservation statements. -/
inductive CmdKind where
  | move
  | line
  | curve
  | quad
  | close
deriving DecidableEq

/-- The kind of a drawing command. -/
def kind : PathCmd → CmdKind
  | .move _ _ => .move
  | .line _ _ => .line
  | .curve _ _ _ _ _ _ => .curve
  | .quad _ _ _ _ => .quad
  | .close => .close

/-- Coordinate points carried by a command (curve control points
included). -/
def cmdPoints : PathCmd → List (ℝ × ℝ)
  | .move x y => [(x, y)]
  | .line x y => [(x, y)]
  | .curve x1 y1 x2 y2 x y => [(x1, y1), (x2, y2), (x, y)]
  | .quad x1 y1 x y => [(x1, y1), (x, y)]
  | .close => []

/-- `opentype.js` bounding box, fields `x1, y1, x2, y2`. -/
structure OTBoundingBox where
  x1 : ℝ
  y1 : ℝ
  x2 : ℝ
  y2 : ℝ

/-- Modelled from the spec: `opentype.js` `Path.getBoundingBox` is a
library dependency whose source is not in this repository.  Per §4.3 the
evaluator takes the extrema over every coordinate point of every command
(curve control points included) and fails when the outline has no
coordinate-bearing commands; the failure is the `none` case here. -/
noncomputable def getBoundingBox (o : Outline) : Option OTBoundingBox :=
  match (o.map cmdPoints).flatten with
  | [] => none
  | p :: ps =>
      some ⟨ps.foldl (fun a q => min a q.1) p.1, ps.foldl (fun a q => min a q.2) p.2,
        ps.foldl (fun a q => max a q.1) p.1, ps.foldl (fun a q => max a q.2) p.2⟩

/-- `BoundingBox` of src/unnamed/part_003. -/
structure BoundingBox where
  xMin : ℝ
  xMax : ℝ
  yMin : ℝ
  yMax : ℝ
  width : ℝ
  height : ℝ

/-- `computeBoundingBox` (src/unnamed/part_003 lines 97-115), taking the
outline produced by `extractPathData` / `buildPathFromData` (DOM and
SVG-string parsing, elided) as input; the `try`/`catch` that yields
`null` is the `Option`. -/
noncomputable def computeBoundingBox (path : Outline) (g : GlyphData) : Option BoundingBox :=
  (getBoundingBox (transformPath path g .regular)).map fun b =>
    ⟨b.x1, b.x2, b.y1, b.y2, b.x2 - b.x1, b.y2 - b.y1⟩

end FontGeom

namespace GlyphAutoTrace

/-- SVG path commands emitted by the tracer as `d`-string fragments:
absolute move, relative horizontal/vertical line, absolute
horizontal/vertical line, close. -/
inductive SVGCmd where
  | moveAbs (x y : ℤ)
  | hRel (dx : ℤ)
  | vRel (dy : ℤ)
  | hAbs (x : ℤ)
  | vAbs (y : ℤ)
  | closePath
deriving DecidableEq

/-- One emitted run rectangle: `M${runStart} ${y}h${runWidth}v1h-${runWidth}Z`. -/
def runRectPart (s y w : ℕ) : List SVGCmd :=
  [.moveAbs s y, .hRel w, .vRel 1, .hRel (-(w : ℤ)), .closePath]

/-- The fallback sentinel: `M0 0 H${width} V${height} H0 Z`. -/
def fullCanvasRect (w h : ℕ) : List SVGCmd :=
  [.moveAbs 0 0, .hAbs w, .vAbs h, .hAbs 0, .closePath]

/-- An RGBA raster image; only the alpha channel is read by the tracer
(`data[(y*width+x)*4+3]` becomes `alpha x y`). -/
structure RasterImage where
  width : ℕ
  height : ℕ
  alpha : ℕ → ℕ → ℕ

/-- The inner `while (runEnd + 1 < width && alpha > threshold) runEnd++`
loop, with explicit fuel (the loop advances `x` at least once per
iteration, so `w - x` steps suffice). -/
def runEndGo (ink : ℕ → Bool) (w : ℕ) : ℕ → ℕ → ℕ
  | 0, x => x
  | fuel + 1, x => if x + 1 < w && ink (x + 1) then runEndGo ink w fuel (x + 1) else x

/-- End of the maximal ink run starting at `x`. -/
def runEnd (ink : ℕ → Bool) (w x : ℕ) : ℕ :=
  runEndGo ink w (w - x) x

/-- The outer `while (x < width)` loop of one row: maximal horizontal
runs of consecutive ink pixels, as `(runStart, runWidth)` pairs. -/
def runsGo (ink : ℕ → Bool) (w : ℕ) : ℕ → ℕ → List (ℕ × ℕ)
  | 0, _ => []
  | fuel + 1, x =>
      if x < w then
        if ink x then
          (x, runEnd ink w x - x + 1) :: runsGo ink w fuel (runEnd ink w x + 1)
        else runsGo ink w fuel (x + 1)
      else []

/-- All ink runs of one row. -/
def rowRuns (ink : ℕ → Bool) (w : ℕ) : List (ℕ × ℕ) :=
  runsGo ink w w 0

/-- `tracePNGtoSVG` (src/GlyphAutoTrace.ts, run-scanning version, lines
57-116 of the file): row-by-row maximal ink runs with a fixed alpha
threshold of 10, one closed unit-thick rectangle per run, and the
single full-canvas rectangle as fallback when no ink pixel is found.
The browser image-decoding steps are elided; the input is the decoded
pixel grid. -/
def tracePNGtoSVG (img : RasterImage) : List (List SVGCmd) :=
  let pathParts :=
    ((List.range img.height).map fun y =>
      (rowRuns (fun x => decide (10 < img.alpha x y)) img.width).map fun run =>
        runRectPart run.1 y run.2).flatten
  if pathParts = [] then [fullCanvasRect img.width img.height] else pathParts

end GlyphAutoTrace

namespace SpacingDebug

/-- `GlyphDataLike` of src/SpacingDebugger.tsx, restricted to the fields
the layout computation reads (`advance`, `leftBearing`, `rightBearing`);
`svg`/`scale`/`rotate`/`x`/`y` are carried through to rendering only and
never influence positions, advances or collision flags. -/
structure GlyphDataLike where
  advance : ℚ
  leftBearing : ℚ
  rightBearing : ℚ
deriving DecidableEq

/-- The `glyphs` record: an association of characters to glyph data. -/
abbrev GlyphMap := List (Char × GlyphDataLike)

/-- A kerning table: signed adjustments keyed by an ordered character
pair (the `${left}_${right}` record of the source). -/
abbrev KerningTable := List ((Char × Char) × ℚ)

/-- The four preview modes of the engine. -/
inductive PreviewMode where
  | typeset
  | monospace
  | grid
  | bounding
deriving DecidableEq

/-- `GRID_SIZE = 20`. -/
def GRID_SIZE : ℚ := 20

/-- `kerningPairs[kerningKey(l, r)] || 0`: the table's adjustment for the
exact ordered pair, defaulting to zero when absent. -/
def lookupKern (T : KerningTable) (l r : Char) : ℚ :=
  match T.find? (fun e => e.1.1 == l && e.1.2 == r) with
  | some e => e.2
  | none => 0

/-- One layout entry (the `id`, `svg` and `glyph` passthrough fields of
the source entry are elided; they never feed back into the layout). -/
structure LayoutEntry where
  char : Char
  advance : ℚ
  left : ℚ
  right : ℚ
  width : ℚ
  start : ℚ
  collision : Bool
deriving DecidableEq

/-- `Math.max(...advances)` over `Object.values(glyphs)`, defaulting to
600 for an empty map. -/
def uniformAdvance (glyphs : GlyphMap) : ℚ :=
  match glyphs.map fun p => p.2.advance with
  | [] => 600
  | a :: rest => rest.foldl max a

/-- `Math.round(q / GRID_SIZE) * GRID_SIZE` (JavaScript rounds half
toward positive infinity, as `round` does on ℚ). -/
def gridSnap (q : ℚ) : ℚ :=
  ((round (q / GRID_SIZE) : ℤ) : ℚ) * GRID_SIZE

/-- `glyphs[char]`: the looked-up glyph record, when present. -/
def baseGlyph (glyphs : GlyphMap) (ch : Char) : Option GlyphDataLike :=
  (glyphs.find? fun p => p.1 == ch).map fun p => p.2

/-- `glyph ? glyph.advance : 600`. -/
def baseAdvance (glyphs : GlyphMap) (ch : Char) : ℚ :=
  match baseGlyph glyphs ch with
  | some g => g.advance
  | none => 600

/-- `glyph ? glyph.leftBearing : 80`. -/
def baseLeft (glyphs : GlyphMap) (ch : Char) : ℚ :=
  match baseGlyph glyphs ch with
  | some g => g.leftBearing
  | none => 80

/-- `glyph ? glyph.rightBearing : 80`. -/
def baseRight (glyphs : GlyphMap) (ch : Char) : ℚ :=
  match baseGlyph glyphs ch with
  | some g => g.rightBearing
  | none => 80

/-- `Math.max(baseAdvance - baseLeft - baseRight, 120)`. -/
def rawWidth (glyphs : GlyphMap) (ch : Char) : ℚ :=
  max (baseAdvance glyphs ch - baseLeft glyphs ch - baseRight glyphs ch) 120

/-- `previewMode === "monospace" ? uniformAdvance : baseAdvance`. -/
def usedAdvance (glyphs : GlyphMap) (mode : PreviewMode) (ua : ℚ) (ch : Char) : ℚ :=
  if mode = .monospace then ua else baseAdvance glyphs ch

/-- `usedAdvance / Math.max(baseAdvance, 1)` (the source's `ratio`). -/
def sizeFactor (glyphs : GlyphMap) (mode : PreviewMode) (ua : ℚ) (ch : Char) : ℚ :=
  usedAdvance glyphs mode ua ch / max (baseAdvance glyphs ch) 1

/-- `usedAdvance * letterSpacingMultiplier + tracking`. -/
def entryAdvance (glyphs : GlyphMap) (mode : PreviewMode) (m t ua : ℚ) (ch : Char) : ℚ :=
  usedAdvance glyphs mode ua ch * m + t

/-- `baseLeft * ratio * letterSpacingMultiplier`. -/
def entryLeft (glyphs : GlyphMap) (mode : PreviewMode) (m ua : ℚ) (ch : Char) : ℚ :=
  baseLeft glyphs ch * sizeFactor glyphs mode ua ch * m

/-- `baseRight * ratio * letterSpacingMultiplier`. -/
def entryRight (glyphs : GlyphMap) (mode : PreviewMode) (m ua : ℚ) (ch : Char) : ℚ :=
  baseRight glyphs ch * sizeFactor glyphs mode ua ch * m

/-- `rawWidth * ratio * letterSpacingMultiplier`. -/
def entryWidth (glyphs : GlyphMap) (mode : PreviewMode) (m ua : ℚ) (ch : Char) : ℚ :=
  rawWidth glyphs ch * sizeFactor glyphs mode ua ch * m

/-- The final advance: grid mode snaps `advance` to the grid. -/
def finalAdvance (glyphs : GlyphMap) (mode : PreviewMode) (m t ua : ℚ) (ch : Char) : ℚ :=
  if mode = .grid then gridSnap (entryAdvance glyphs mode m t ua ch)
  else entryAdvance glyphs mode m t ua ch

/-- The `forEach` loop of src/SpacingDebugger.tsx lines 61-109, as a
recursion over the remaining characters with the running `cursor`,
`prevEnd` and `last` accumulators; the per-character `let` chain of the
source is the helper definitions above. -/
def layoutGo (glyphs : GlyphMap) (kern : KerningTable) (mode : PreviewMode) (m t ua : ℚ) :
    List Char → ℚ → ℚ → Option Char → List LayoutEntry
  | [], _, _, _ => []
  | ch :: rest, cursor, prevEnd, last =>
      let kv : ℚ := match last with
        | none => 0
        | some l => lookupKern kern l ch
      let cursor1 := cursor + kv
      let start := if mode = .grid then gridSnap cursor1 else cursor1
      let glyphStart := start + entryLeft glyphs mode m ua ch
      let collision := decide (glyphStart < prevEnd)
      let endOfBox := glyphStart + entryWidth glyphs mode m ua ch
      let prevEnd2 := max prevEnd endOfBox
      ⟨ch, finalAdvance glyphs mode m t ua ch, entryLeft glyphs mode m ua ch,
          entryRight glyphs mode m ua ch, entryWidth glyphs mode m ua ch, start, collision⟩ ::
        layoutGo glyphs kern mode m t ua rest
          (start + finalAdvance glyphs mode m t ua ch) prevEnd2 (some ch)

/-- The Typesetting Engine: cursor and previous-right-edge start at 0,
no previous character. -/
def layout (text : List Char) (glyphs : GlyphMap) (kern : KerningTable)
    (mode : PreviewMode) (m t : ℚ) : List LayoutEntry :=
  layoutGo glyphs kern mode m t (uniformAdvance glyphs) text 0 0 none

/-- A glyph's left-inked edge: `start + left`. -/
def inkLeft (e : LayoutEntry) : ℚ := e.start + e.left

/-- A glyph's right-inked edge: `start + left + width`. -/
def inkRight (e : LayoutEntry) : ℚ := e.start + e.left + e.width

/-- Everything in an entry except the collision flag. -/
def entryPos (e : LayoutEntry) : Char × ℚ × ℚ × ℚ × ℚ × ℚ :=
  (e.char, e.advance, e.left, e.right, e.width, e.start)

/-- Spec-side cumulative kerning: the running sum of the table's
adjustments for the successive ordered pairs of the text, zero when a
pair is absent and zero contribution for the first character. -/
def cumKernFrom (T : KerningTable) : Option Char → ℚ → List Char → List ℚ
  | _, _, [] => []
  | last, acc, ch :: rest =>
      let k : ℚ := match last with
        | none => 0
        | some l => lookupKern T l ch
      (acc + k) :: cumKernFrom T (some ch) (acc + k) rest

/-- Cumulative kerning of a text, from an empty prefix. -/
def cumKern (T : KerningTable) (text : List Char) : List ℚ :=
  cumKernFrom T none 0 text

end SpacingDebug

namespace FontMakerCore

/-- The supported repertoire (src/FontMaker.tsx and src/unnamed/part_001
lines 39-70). -/
def UPPER : List Char := "ABCDEFGHIJKLMNOPQRSTUVWXYZ".toList

/-- Lower-case letters of the repertoire. -/
def LOWER : List Char := "abcdefghijklmnopqrstuvwxyz".toList

/-- Digits of the repertoire. -/
def DIGITS : List Char := "0123456789".toList

/-- The fixed punctuation set of the repertoire. -/
def PUNCTUATION : List Char := ".,!?:;\x27\"()[]\x7b\x7d-_+=/\\@#$%&".toList

/-- `GLYPHS = [...UPPER, ...LOWER, ...DIGITS, ...PUNCTUATION]`. -/
def GLYPHS : List Char := UPPER ++ LOWER ++ DIGITS ++ PUNCTUATION

/-- `FontMetadata` of the source. -/
structure FontMetadata where
  fontName : String
  styleName : String
  unitsPerEm : ℝ
  ascender : ℝ
  descender : ℝ
  padding : ℝ

/-- The `opentype.Glyph` built by src/unnamed/part_001 `glyphToOpenType`
(name, unicode, advance width, left side bearing, bounds, path). -/
structure OTGlyph where
  name : String
  unicode : ℕ
  advanceWidth : ℝ
  leftSideBearing : ℝ
  xMin : ℝ
  xMax : ℝ
  yMin : ℝ
  yMax : ℝ
  path : FontGeom.Outline

/-- `glyphToOpenType` (src/unnamed/part_001 lines 231-256): `none` for a
glyph without artwork; otherwise the style-transformed outline with
`glyphWidth = max(bboxWidth, advance - leftBearing - rightBearing)`,
`advanceWidth = leftBearing + glyphWidth + rightBearing`, scaled by 1.08
for a Bold style.  A bounding-box failure (see `FontGeom.getBoundingBox`)
is a thrown exception in the source, with no message built by repository
code: it is the information-free `Except.error ()`. -/
noncomputable def glyphToOpenType (char : Char) (glyph : FontGeom.GlyphData)
    (style : FontGeom.FontStyle) : Except Unit (Option OTGlyph) :=
  match glyph.svg with
  | none => .ok none
  | some path =>
      let transformed := FontGeom.transformPath path glyph style
      match FontGeom.getBoundingBox transformed with
      | none => .error ()
      | some bbox =>
          let glyphWidth := max (bbox.x2 - bbox.x1)
            (glyph.advance - glyph.leftBearing - glyph.rightBearing)
          let advanceWidth := glyph.leftBearing + glyphWidth + glyph.rightBearing
          let advanceAdjusted := advanceWidth * (if style.hasBold then 1.08 else 1)
          .ok (some ⟨char.toString, char.toNat, advanceAdjusted, glyph.leftBearing,
            bbox.x1, bbox.x2, bbox.y1, bbox.y2, transformed⟩)

/-- The `GLYPHS.forEach` collection loop of `exportFont`: glyphs without
artwork are skipped, a thrown error aborts the traversal. -/
noncomputable def collectGlyphs (glyphs : Char → FontGeom.GlyphData)
    (style : FontGeom.FontStyle) : List Char → Except Unit (List OTGlyph)
  | [] => .ok []
  | c :: rest =>
      match glyphToOpenType c (glyphs c) style with
      | .error e => .error e
      | .ok none => collectGlyphs glyphs style rest
      | .ok (some gl) => (collectGlyphs glyphs style rest).map fun gs => gl :: gs

/-- The font document assembled by src/unnamed/part_001 `exportFont`:
constructor arguments of `opentype.Font` (descender stored negative),
the per-character glyphs, and the kerning pairs. -/
structure FontDoc where
  familyName : String
  styleName : FontGeom.FontStyle
  unitsPerEm : ℝ
  ascender : ℝ
  descender : ℝ
  glyphs : List OTGlyph
  kerningPairs : List ((Char × Char) × ℝ)

/-- `exportFont` (src/unnamed/part_001 lines 281-307): assembles the
whole document, aborting when any glyph throws; the browser download of
the serialized binary is elided. -/
noncomputable def exportFont (glyphs : Char → FontGeom.GlyphData)
    (style : FontGeom.FontStyle) (metadata : FontMetadata)
    (kerningPairs : List ((Char × Char) × ℝ)) : Except Unit FontDoc :=
  match collectGlyphs glyphs style GLYPHS with
  | .error e => .error e
  | .ok gs =>
      .ok ⟨metadata.fontName, style, metadata.unitsPerEm, metadata.ascender,
        -|metadata.descender|, gs, kerningPairs⟩

end FontMakerCore

namespace FontMakerTsx

/-- The `opentype.Glyph` built by src/FontMaker.tsx `glyphToOpenType`
(no bounds or side bearing are supplied in this snapshot). -/
structure OTGlyph where
  name : String
  unicode : ℕ
  advanceWidth : ℝ
  path : FontGeom.Outline

/-- `glyphToOpenType` (src/FontMaker.tsx lines 318-337): `null` without
artwork, otherwise the transformed path with
`advanceWidth = glyph.advance || 600` (the JavaScript `||` replaces a
zero advance by 600). -/
noncomputable def glyphToOpenType (char : Char) (glyph : FontGeom.GlyphData)
    (style : FontGeom.FontStyle) : Option OTGlyph :=
  match glyph.svg with
  | none => none
  | some path =>
      let transformed := FontGeom.transformPath path glyph style
      let advanceWidth := if glyph.advance = 0 then 600 else glyph.advance
      some ⟨char.toString, char.toNat, advanceWidth, transformed⟩

/-- The required `.notdef` placeholder pushed first by `exportFont`
(src/FontMaker.tsx lines 366-372): name `.notdef`, unicode 0, advance
650, empty path. -/
noncomputable def notdefGlyph : OTGlyph := ⟨".notdef", 0, 650, []⟩

/-- The font document of src/FontMaker.tsx `exportFont` (the kerning
block is commented out in this snapshot). -/
structure FontDoc where
  familyName : String
  styleName : FontGeom.FontStyle
  unitsPerEm : ℝ
  ascender : ℝ
  descender : ℝ
  glyphs : List OTGlyph

/-- `exportFont` (src/FontMaker.tsx lines 362-424): the `.notdef`
placeholder followed by one glyph per repertoire character with
artwork; the Blob/anchor download plumbing is elided. -/
noncomputable def exportFont (style : FontGeom.FontStyle)
    (glyphs : Char → FontGeom.GlyphData) (metadata : FontMakerCore.FontMetadata) : FontDoc :=
  let glyphList := notdefGlyph ::
    FontMakerCore.GLYPHS.filterMap fun c => glyphToOpenType c (glyphs c) style
  ⟨metadata.fontName, style, metadata.unitsPerEm, metadata.ascender,
    -|metadata.descender|, glyphList⟩

end FontMakerTsx

/-- Glyph map of the collision scenario: ink-width data making an early
glyph's right-inked edge overhang later ones. -/
def collisionGlyphs : SpacingDebug.GlyphMap :=
  [('a', ⟨600, 0, 0⟩), ('b', ⟨600, 0, 480⟩), ('c', ⟨600, 0, 0⟩)]

/-- Kerning of the collision scenario: two negative pulls. -/
def collisionKern : SpacingDebug.KerningTable :=
  [(('a', 'b'), -500), (('b', 'c'), -400)]

/-- Glyph used to instantiate the advance-width formula: a one-point
outline with the default metrics. -/
noncomputable def formulaGlyph : FontGeom.GlyphData :=
  ⟨some [FontGeom.PathCmd.move 0 0], 1, 0, 0, 0, 600, 100, 100, false, false, false⟩

/-- Glyph map where exactly characters A and B carry artwork. -/
noncomputable def abGlyphs : Char → FontGeom.GlyphData := fun c =>
  if c = 'A' ∨ c = 'B' then
    ⟨some [FontGeom.PathCmd.close], 1, 0, 0, 0, 600, 100, 100, false, false, false⟩
  else ⟨none, 1, 0, 0, 0, 600, 100, 100, false, false, false⟩

/-- Glyph map whose only artwork, on the one character given, is a
coordinate-free outline on which the bounding box fails. -/
noncomputable def badOutlineOn (target : Char) : Char → FontGeom.GlyphData := fun c =>
  if c = target then
    ⟨some [FontGeom.PathCmd.close], 1, 0, 0, 0, 600, 100, 100, false, false, false⟩
  else ⟨none, 1, 0, 0, 0, 600, 100, 100, false, false, false⟩

/-- Metadata used by the failing-export scenario. -/
noncomputable def failMeta : FontMakerCore.FontMetadata :=
  ⟨"MyFont", "Regular", 1100, 700, 400, 50⟩

namespace FontGeom

theorem applyPoint_eq_specPoint (g : GlyphData) (style : FontStyle) (x y : ℝ) :
    applyPoint g style x y = specPoint g style (x, y) := by
  cases hi : style.hasItalic <;>
    simp [applyPoint, specPoint, specScalePoint, specShearPoint, specRotatePoint,
      specTranslatePoint, styleScaleFactor, hi]

theorem transformCmd_eq_mapCmdCoords (g : GlyphData) (style : FontStyle) (c : PathCmd) :
    transformCmd g style c = mapCmdCoords (specPoint g style) c := by
  cases c <;> simp [transformCmd, mapCmdCoords, applyPoint_eq_specPoint]

/-- The identity per-point mapping at scale 1, rotate 0, translate (0,0),
style Regular. -/
theorem applyPoint_identity (svg : Option Outline) (adv l r : ℝ)
    (lc lx nc : Bool) (x y : ℝ) :
    applyPoint ⟨svg, 1, 0, 0, 0, adv, l, r, lc, lx, nc⟩ FontStyle.regular x y = (x, y) := by
  simp [applyPoint, FontStyle.hasBold, FontStyle.hasItalic]

theorem cmdPoints_transformCmd_close (g : GlyphData) (style : FontStyle) (c : PathCmd)
    (h : c = PathCmd.close) : cmdPoints (transformCmd g style c) = [] := by
  subst h
  rfl

end FontGeom

/-- Claim C2: for every input outline, glyph transform and style
variant, `transformPath` maps every coordinate-bearing field of every
command — the endpoint and each curve control point, independently — by
the fixed per-point sequence: scale by `glyph.scale × (1.12 if Bold)`,
then the Italic shear `x + y·tan 12°`, then rotation by
`glyph.rotate` degrees about the origin, then translation by
`(glyph.x, glyph.y)`. -/
theorem transformPath_fixed_point_sequence (path : FontGeom.Outline)
    (g : FontGeom.GlyphData) (style : FontGeom.FontStyle) :
    FontGeom.transformPath path g style =
      path.map (FontGeom.mapCmdCoords (FontGeom.specPoint g style)) := by
  unfold FontGeom.transformPath
  induction path with
  | nil => rfl
  | cons c rest ih => simp [ih, FontGeom.transformCmd_eq_mapCmdCoords]

/-- Claim C3: applying the Path Transformer with scale 1, rotate 0,
translate (0,0) and style Regular returns an outline with coordinates
identical to the input. -/
theorem transformPath_identity_roundtrip (path : FontGeom.Outline)
    (svg : Option FontGeom.Outline) (adv l r : ℝ) (lc lx nc : Bool) :
    FontGeom.transformPath path ⟨svg, 1, 0, 0, 0, adv, l, r, lc, lx, nc⟩
      FontGeom.FontStyle.regular = path := by
  unfold FontGeom.transformPath
  induction path with
  | nil => rfl
  | cons c rest ih =>
      have hc : FontGeom.transformCmd ⟨svg, 1, 0, 0, 0, adv, l, r, lc, lx, nc⟩
          FontGeom.FontStyle.regular c = c := by
        cases c <;> simp [FontGeom.transformCmd, FontGeom.applyPoint_identity]
      simp [hc, ih]

/-- Claim C10: `transformPath` returns an outline with exactly as many
commands as the input, the command at each position has the same kind
(move/line/curve/quad/close) as the input command there, and a command
without coordinates (close) is passed through unchanged. -/
theorem transformPath_preserves_command_kinds (path : FontGeom.Outline)
    (g : FontGeom.GlyphData) (style : FontGeom.FontStyle) :
    List.Forall₂
        (fun c d => FontGeom.kind d = FontGeom.kind c ∧ (c = FontGeom.PathCmd.close → d = c))
        path (FontGeom.transformPath path g style) ∧
      (FontGeom.transformPath path g style).length = path.length := by
  constructor
  · unfold FontGeom.transformPath
    induction path with
    | nil => exact List.Forall₂.nil
    | cons c rest ih =>
        refine List.Forall₂.cons ?_ ih
        cases c <;> simp [FontGeom.transformCmd, FontGeom.kind]
  · simp [FontGeom.transformPath]

/-- Claim C9: for every outline whose command list contains no
coordinate-bearing commands, `computeBoundingBox` returns `none` rather
than a numeric bounding box. -/
theorem computeBoundingBox_none_without_coords (path : FontGeom.Outline)
    (g : FontGeom.GlyphData) (h : ∀ c ∈ path, c = FontGeom.PathCmd.close) :
    FontGeom.computeBoundingBox path g = none := by
  have hjoin : ((FontGeom.transformPath path g .regular).map FontGeom.cmdPoints).flatten = [] := by
    unfold FontGeom.transformPath
    rw [List.flatten_eq_nil_iff]
    intro l hl
    rw [List.mem_map] at hl
    obtain ⟨c, hc, rfl⟩ := hl
    rw [List.mem_map] at hc
    obtain ⟨d, hd, rfl⟩ := hc
    exact FontGeom.cmdPoints_transformCmd_close g .regular d (h d hd)
  simp [FontGeom.computeBoundingBox, FontGeom.getBoundingBox, hjoin]

/-- Witness for C9 at the concrete outline `[close]`: the bounding box
evaluator returns `none`. -/
theorem computeBoundingBox_none_instance :
    FontGeom.computeBoundingBox [FontGeom.PathCmd.close]
      ⟨none, 1, 0, 0, 0, 600, 100, 100, false, false, false⟩ = none :=
  computeBoundingBox_none_without_coords [FontGeom.PathCmd.close]
    ⟨none, 1, 0, 0, 0, 600, 100, 100, false, false, false⟩
    (by intro c hc; simpa using hc)

namespace GlyphAutoTrace

theorem runsGo_eq_nil (ink : ℕ → Bool) (w : ℕ) (hink : ∀ x, x < w → ink x = false) :
    ∀ fuel x, runsGo ink w fuel x = [] := by
  intro fuel
  induction fuel with
  | zero => intro x; rfl
  | succ n ih =>
      intro x
      by_cases hx : x < w
      · simp [runsGo, hx, hink x hx, ih]
      · simp [runsGo, hx]

end GlyphAutoTrace

/-- Claim C8: the Raster Tracer never fails: on an image with no ink
pixels (no pixel with alpha above the threshold 10) it returns exactly
one fallback outline, the full-canvas rectangle sized to the image's
own width and height, and on every image it returns a non-empty
outline. -/
theorem trace_fallback_nonempty (img : GlyphAutoTrace.RasterImage) :
    ((∀ x, x < img.width → ∀ y, y < img.height → img.alpha x y ≤ 10) →
        GlyphAutoTrace.tracePNGtoSVG img =
          [GlyphAutoTrace.fullCanvasRect img.width img.height]) ∧
      GlyphAutoTrace.tracePNGtoSVG img ≠ [] := by
  constructor
  · intro h
    have hparts : ((List.range img.height).map fun y =>
        (GlyphAutoTrace.rowRuns (fun x => decide (10 < img.alpha x y)) img.width).map fun run =>
          GlyphAutoTrace.runRectPart run.1 y run.2).flatten = [] := by
      rw [List.flatten_eq_nil_iff]
      intro l hl
      rw [List.mem_map] at hl
      obtain ⟨y, hy, rfl⟩ := hl
      rw [List.mem_range] at hy
      have hrow : GlyphAutoTrace.rowRuns
          (fun x => decide (10 < img.alpha x y)) img.width = [] := by
        apply GlyphAutoTrace.runsGo_eq_nil
        intro x hx
        simp only [decide_eq_false_iff_not, not_lt]
        exact h x hx y hy
      rw [hrow]
      rfl
    unfold GlyphAutoTrace.tracePNGtoSVG
    rw [hparts]
    rfl
  · unfold GlyphAutoTrace.tracePNGtoSVG
    by_cases hp : ((List.range img.height).map fun y =>
        (GlyphAutoTrace.rowRuns (fun x => decide (10 < img.alpha x y)) img.width).map fun run =>
          GlyphAutoTrace.runRectPart run.1 y run.2).flatten = []
    · simp [hp]
    · simp only [if_neg hp]
      exact hp

/-- Witness for C8 at a concrete 3-by-2 all-transparent image: the
tracer emits exactly the full-canvas fallback rectangle and a non-empty
result. -/
theorem trace_fallback_instance :
    GlyphAutoTrace.tracePNGtoSVG ⟨3, 2, fun _ _ => 0⟩ =
        [GlyphAutoTrace.fullCanvasRect 3 2] ∧
      GlyphAutoTrace.tracePNGtoSVG ⟨3, 2, fun _ _ => 0⟩ ≠ [] :=
  ⟨(trace_fallback_nonempty ⟨3, 2, fun _ _ => 0⟩).1 (by decide),
    (trace_fallback_nonempty ⟨3, 2, fun _ _ => 0⟩).2⟩


namespace SpacingDebug

theorem lookupKern_nil (l r : Char) : lookupKern [] l r = 0 := rfl

theorem layoutGo_length (glyphs : GlyphMap) (kern : KerningTable) (mode : PreviewMode)
    (m t ua : ℚ) :
    ∀ (chars : List Char) (cursor pe : ℚ) (last : Option Char),
      (layoutGo glyphs kern mode m t ua chars cursor pe last).length = chars.length := by
  intro chars
  induction chars with
  | nil => intro cursor pe last; rfl
  | cons ch rest ih =>
      intro cursor pe last
      simp only [layoutGo, List.length_cons]
      rw [ih]

end SpacingDebug

namespace SpacingDebug

theorem layoutGo_collision_eq (glyphs : GlyphMap) (kern : KerningTable) (mode : PreviewMode)
    (m t ua : ℚ) :
    ∀ (chars : List Char) (cursor pe : ℚ) (last : Option Char) (i : ℕ)
      (h : i < (layoutGo glyphs kern mode m t ua chars cursor pe last).length),
      ((layoutGo glyphs kern mode m t ua chars cursor pe last).get ⟨i, h⟩).collision =
        decide (inkLeft ((layoutGo glyphs kern mode m t ua chars cursor pe last).get ⟨i, h⟩) <
          ((layoutGo glyphs kern mode m t ua chars cursor pe last).take i).foldl
            (fun a e => max a (inkRight e)) pe) := by
  intro chars
  induction chars with
  | nil =>
      intro cursor pe last i h
      simp [layoutGo] at h
  | cons ch rest ih =>
      intro cursor pe last i h
      match i with
      | 0 =>
          simp [layoutGo, inkLeft, inkRight]
      | Nat.succ j =>
          simp only [layoutGo, List.get_cons_succ, List.take_succ_cons, List.foldl_cons]
          rw [ih]
          simp only [inkRight]

end SpacingDebug

namespace SpacingDebug

theorem layoutGo_pos_indep (glyphs : GlyphMap) (kern : KerningTable) (mode : PreviewMode)
    (m t ua : ℚ) :
    ∀ (chars : List Char) (cursor pe pe2 : ℚ) (last : Option Char),
      (layoutGo glyphs kern mode m t ua chars cursor pe last).map entryPos =
        (layoutGo glyphs kern mode m t ua chars cursor pe2 last).map entryPos := by
  intro chars
  induction chars with
  | nil => intro cursor pe pe2 last; rfl
  | cons ch rest ih =>
      intro cursor pe pe2 last
      simp only [layoutGo, List.map_cons]
      refine congrArg₂ List.cons ?_ (ih _ _ _ _)
      simp only [entryPos]

end SpacingDebug

namespace SpacingDebug

theorem ite_typeset_grid (a b : ℚ) :
    (if (PreviewMode.typeset : PreviewMode) = PreviewMode.grid then a else b) = b := rfl

theorem layoutGo_start_kern (glyphs : GlyphMap) (T : KerningTable) (m t ua : ℚ) :
    ∀ (chars : List Char) (c d pe pe2 : ℚ) (last : Option Char),
      (layoutGo glyphs T .typeset m t ua chars (c + d) pe last).map (fun e => e.start) =
        List.zipWith (fun s k => s + k)
          ((layoutGo glyphs [] .typeset m t ua chars c pe2 last).map fun e => e.start)
          (cumKernFrom T last d chars) := by
  intro chars
  induction chars with
  | nil => intro c d pe pe2 last; rfl
  | cons ch rest ih =>
      intro c d pe pe2 last
      cases last with
      | none =>
          simp only [layoutGo, cumKernFrom, List.map_cons, List.zipWith_cons_cons,
            ite_typeset_grid]
          refine congrArg₂ List.cons ?_ ?_
          · ring
          · rw [show c + d + 0 + finalAdvance glyphs PreviewMode.typeset m t ua ch =
                c + 0 + finalAdvance glyphs PreviewMode.typeset m t ua ch + (d + 0) from by ring]
            exact ih _ _ _ _ _
      | some l =>
          simp only [layoutGo, cumKernFrom, List.map_cons, List.zipWith_cons_cons,
            ite_typeset_grid, lookupKern_nil]
          refine congrArg₂ List.cons ?_ ?_
          · ring
          · rw [show c + d + lookupKern T l ch + finalAdvance glyphs PreviewMode.typeset m t ua ch =
                c + 0 + finalAdvance glyphs PreviewMode.typeset m t ua ch +
                  (d + lookupKern T l ch) from by ring]
            exact ih _ _ _ _ _

end SpacingDebug

namespace SpacingDebug

theorem layout_length (text : List Char) (glyphs : GlyphMap) (kern : KerningTable)
    (mode : PreviewMode) (m t : ℚ) :
    (layout text glyphs kern mode m t).length = text.length :=
  layoutGo_length glyphs kern mode m t (uniformAdvance glyphs) text 0 0 none

end SpacingDebug

/-- Counterexample to claim C4 as stated: in the layout of "abc" with
`collisionGlyphs` and the kerning pulls of `collisionKern` (typeset
mode, multiplier 1, tracking 0), the entry at
index 2 has `collision = true` although its left-inked edge is not less
than the right-inked edge of the previous glyph (the entry at index 1):
the code compares against the running maximum of all earlier right-inked
edges (here entry 0 reaches 600 while entry 1 ends at 220, and entry 2
starts its ink at 300). -/
theorem layout_collision_counterexample :
    ((SpacingDebug.layout ['a', 'b', 'c'] collisionGlyphs collisionKern .typeset 1 0).get
        ⟨2, by with_unfolding_all decide⟩).collision = true ∧
      ¬(SpacingDebug.inkLeft
            ((SpacingDebug.layout ['a', 'b', 'c'] collisionGlyphs collisionKern
              .typeset 1 0).get ⟨2, by with_unfolding_all decide⟩) <
          SpacingDebug.inkRight
            ((SpacingDebug.layout ['a', 'b', 'c'] collisionGlyphs collisionKern
              .typeset 1 0).get ⟨1, by with_unfolding_all decide⟩)) := by
  with_unfolding_all decide

/-- Claim C4 (amended): in every layout, the entry at index i has
`collision = true` exactly when its left-inked edge (start plus resolved
left bearing) is less than the running maximum, over all previous
entries, of their right-inked edges (start + left + ink width), a
maximum initialized to 0 (so the first entry compares against 0); and
the collision flag never alters any position or advance: the layout with
the `prevEnd` accumulator replaced by any other value agrees on
everything except the collision flags. -/
theorem layout_collision_running_max :
    (∀ (text : List Char) (glyphs : SpacingDebug.GlyphMap) (T : SpacingDebug.KerningTable)
        (mode : SpacingDebug.PreviewMode) (m t : ℚ) (i : ℕ)
        (h : i < (SpacingDebug.layout text glyphs T mode m t).length),
      ((SpacingDebug.layout text glyphs T mode m t).get ⟨i, h⟩).collision =
        decide (SpacingDebug.inkLeft ((SpacingDebug.layout text glyphs T mode m t).get ⟨i, h⟩) <
          ((SpacingDebug.layout text glyphs T mode m t).take i).foldl
            (fun a e => max a (SpacingDebug.inkRight e)) 0)) ∧
      ∀ (glyphs : SpacingDebug.GlyphMap) (T : SpacingDebug.KerningTable)
          (mode : SpacingDebug.PreviewMode) (m t ua : ℚ) (chars : List Char)
          (cursor pe pe2 : ℚ) (last : Option Char),
        (SpacingDebug.layoutGo glyphs T mode m t ua chars cursor pe last).map
            SpacingDebug.entryPos =
          (SpacingDebug.layoutGo glyphs T mode m t ua chars cursor pe2 last).map
            SpacingDebug.entryPos := by
  constructor
  · intro text glyphs T mode m t i h
    exact SpacingDebug.layoutGo_collision_eq glyphs T mode m t
      (SpacingDebug.uniformAdvance glyphs) text 0 0 none i h
  · intro glyphs T mode m t ua chars cursor pe pe2 last
    exact SpacingDebug.layoutGo_pos_indep glyphs T mode m t ua chars cursor pe pe2 last

/-- Witness for the amended C4 at the concrete "abc" scenario, index 2:
the collision flag equals the running-maximum comparison. -/
theorem layout_collision_running_max_instance :
    ((SpacingDebug.layout ['a', 'b', 'c'] collisionGlyphs collisionKern .typeset 1 0).get
        ⟨2, by with_unfolding_all decide⟩).collision =
      decide (SpacingDebug.inkLeft
          ((SpacingDebug.layout ['a', 'b', 'c'] collisionGlyphs collisionKern
            .typeset 1 0).get ⟨2, by with_unfolding_all decide⟩) <
        ((SpacingDebug.layout ['a', 'b', 'c'] collisionGlyphs collisionKern
            .typeset 1 0).take 2).foldl (fun a e => max a (SpacingDebug.inkRight e)) 0) :=
  layout_collision_running_max.1 ['a', 'b', 'c'] collisionGlyphs collisionKern
    .typeset 1 0 2 (by with_unfolding_all decide)

/-- Claim C5: the Typesetting Engine adds the kerning table's signed
adjustment for the ordered pair (previous character, current character)
to the cursor before placing each glyph after the first, and zero when
no entry for that exact ordered pair exists: in typeset mode the start
positions under a table T are the start positions under the empty table
shifted by the running sums of the pairwise adjustments (`cumKern`,
which contributes 0 for absent pairs); the layout has one entry per
character; and with the single entry (A,V) = -80, laying out "AV"
places V's start exactly 80 units to the left of its start under the
empty table. -/
theorem layout_kerning_adjustment :
    (∀ (text : List Char) (glyphs : SpacingDebug.GlyphMap) (T : SpacingDebug.KerningTable)
        (m t : ℚ),
      (SpacingDebug.layout text glyphs T .typeset m t).map (fun e => e.start) =
        List.zipWith (fun s k => s + k)
          ((SpacingDebug.layout text glyphs [] .typeset m t).map fun e => e.start)
          (SpacingDebug.cumKern T text)) ∧
      (∀ (text : List Char) (glyphs : SpacingDebug.GlyphMap) (T : SpacingDebug.KerningTable)
          (mode : SpacingDebug.PreviewMode) (m t : ℚ),
        (SpacingDebug.layout text glyphs T mode m t).length = text.length) ∧
      ∀ (glyphs : SpacingDebug.GlyphMap) (m t : ℚ),
        (SpacingDebug.layout ['A', 'V'] glyphs [(('A', 'V'), -80)] .typeset m t).map
            (fun e => e.start) =
          List.zipWith (fun s k => s + k)
            ((SpacingDebug.layout ['A', 'V'] glyphs [] .typeset m t).map fun e => e.start)
            [0, -80] := by
  have hmain : ∀ (text : List Char) (glyphs : SpacingDebug.GlyphMap)
      (T : SpacingDebug.KerningTable) (m t : ℚ),
      (SpacingDebug.layout text glyphs T .typeset m t).map (fun e => e.start) =
        List.zipWith (fun s k => s + k)
          ((SpacingDebug.layout text glyphs [] .typeset m t).map fun e => e.start)
          (SpacingDebug.cumKern T text) := by
    intro text glyphs T m t
    have h := SpacingDebug.layoutGo_start_kern glyphs T m t
      (SpacingDebug.uniformAdvance glyphs) text 0 0 0 0 none
    rw [zero_add] at h
    exact h
  refine ⟨hmain, fun text glyphs T mode m t => SpacingDebug.layout_length text glyphs T mode m t,
    fun glyphs m t => ?_⟩
  have hck : SpacingDebug.cumKern [(('A', 'V'), -80)] ['A', 'V'] = [0, -80] := by
    with_unfolding_all decide
  have h := hmain ['A', 'V'] glyphs [(('A', 'V'), -80)] m t
  rw [hck] at h
  exact h

namespace FontMakerTsx

theorem filterMap_names (style : FontGeom.FontStyle) (glyphs : Char → FontGeom.GlyphData) :
    ∀ l : List Char,
      ((l.filterMap fun c => glyphToOpenType c (glyphs c) style).map fun g => g.name) =
        (l.filter fun c => ((glyphs c).svg).isSome).map Char.toString := by
  intro l
  induction l with
  | nil => rfl
  | cons c rest ih =>
      cases hsvg : (glyphs c).svg with
      | none =>
          simp only [List.filterMap_cons, List.filter_cons, hsvg, Option.isSome_none,
            glyphToOpenType]
          simpa using ih
      | some path =>
          simp only [List.filterMap_cons, List.filter_cons, hsvg, Option.isSome_some,
            glyphToOpenType]
          simpa using ih

end FontMakerTsx

/-- Claim C1: for every glyph with a non-null outline whose bounding box
succeeds, the emitted glyph's advance width equals
`leftBearing + glyphWidth + rightBearing` with
`glyphWidth = max(width of the style-transformed outline's bounding box,
advance - leftBearing - rightBearing)`, multiplied by 1.08 exactly when
the requested style includes Bold. -/
theorem glyphToOpenType_advance_formula (c : Char) (g : FontGeom.GlyphData)
    (style : FontGeom.FontStyle) (path : FontGeom.Outline) (box : FontGeom.OTBoundingBox)
    (hpath : g.svg = some path)
    (hbox : FontGeom.getBoundingBox (FontGeom.transformPath path g style) = some box) :
    FontMakerCore.glyphToOpenType c g style =
      Except.ok (some ⟨c.toString, c.toNat,
        (g.leftBearing +
            max (box.x2 - box.x1) (g.advance - g.leftBearing - g.rightBearing) +
            g.rightBearing) *
          (if style.hasBold then 1.08 else 1),
        g.leftBearing, box.x1, box.x2, box.y1, box.y2,
        FontGeom.transformPath path g style⟩) := by
  simp only [FontMakerCore.glyphToOpenType, hpath, hbox]

/-- Witness for C1 at a concrete glyph and style Regular: the bounding
box succeeds and the exported advance width is the formula. -/
theorem glyphToOpenType_advance_formula_instance :
    ∃ box : FontGeom.OTBoundingBox,
      FontGeom.getBoundingBox (FontGeom.transformPath [FontGeom.PathCmd.move 0 0]
          formulaGlyph FontGeom.FontStyle.regular) = some box ∧
        FontMakerCore.glyphToOpenType 'A' formulaGlyph FontGeom.FontStyle.regular =
          Except.ok (some ⟨Char.toString 'A', Char.toNat 'A',
            (formulaGlyph.leftBearing +
                max (box.x2 - box.x1)
                  (formulaGlyph.advance - formulaGlyph.leftBearing -
                    formulaGlyph.rightBearing) +
                formulaGlyph.rightBearing) *
              (if FontGeom.FontStyle.hasBold FontGeom.FontStyle.regular then 1.08 else 1),
            formulaGlyph.leftBearing, box.x1, box.x2, box.y1, box.y2,
            FontGeom.transformPath [FontGeom.PathCmd.move 0 0] formulaGlyph
              FontGeom.FontStyle.regular⟩) := by
  refine ⟨_, rfl, ?_⟩
  exact glyphToOpenType_advance_formula 'A' formulaGlyph FontGeom.FontStyle.regular
    [FontGeom.PathCmd.move 0 0] _ rfl rfl

/-- Claim C6: for every style, the exported font document contains
exactly one `.notdef` placeholder plus one glyph per repertoire
character with a non-null outline, and none for characters without
artwork; with artwork only on A and B, the glyph names are exactly
`.notdef`, `A`, `B`. -/
theorem exportFont_placeholder_and_artwork_glyphs :
    (∀ (style : FontGeom.FontStyle) (glyphs : Char → FontGeom.GlyphData)
        (meta : FontMakerCore.FontMetadata),
      ((FontMakerTsx.exportFont style glyphs meta).glyphs.map fun g => g.name) =
        FontMakerTsx.notdefGlyph.name ::
          ((FontMakerCore.GLYPHS.filter fun c => ((glyphs c).svg).isSome).map
            Char.toString)) ∧
      ∀ (style : FontGeom.FontStyle) (meta : FontMakerCore.FontMetadata),
        ((FontMakerTsx.exportFont style abGlyphs meta).glyphs.map fun g => g.name) =
          [".notdef", "A", "B"] := by
  have hgen : ∀ (style : FontGeom.FontStyle) (glyphs : Char → FontGeom.GlyphData)
      (meta : FontMakerCore.FontMetadata),
      ((FontMakerTsx.exportFont style glyphs meta).glyphs.map fun g => g.name) =
        FontMakerTsx.notdefGlyph.name ::
          ((FontMakerCore.GLYPHS.filter fun c => ((glyphs c).svg).isSome).map
            Char.toString) := by
    intro style glyphs meta
    simp only [FontMakerTsx.exportFont, List.map_cons]
    rw [FontMakerTsx.filterMap_names]
  refine ⟨hgen, fun style meta => ?_⟩
  rw [hgen]
  have hfil : (FontMakerCore.GLYPHS.filter fun c => ((abGlyphs c).svg).isSome) =
      ['A', 'B'] := by decide
  rw [hfil]
  rfl

namespace FontMakerCore

theorem glyphToOpenType_error_of_bbox_none (c : Char) (g : FontGeom.GlyphData)
    (style : FontGeom.FontStyle) (path : FontGeom.Outline) (hpath : g.svg = some path)
    (hbox : FontGeom.getBoundingBox (FontGeom.transformPath path g style) = none) :
    glyphToOpenType c g style = Except.error () := by
  simp only [glyphToOpenType, hpath, hbox]

theorem collectGlyphs_error (glyphs : Char → FontGeom.GlyphData)
    (style : FontGeom.FontStyle) :
    ∀ chars : List Char,
      (∃ c ∈ chars, glyphToOpenType c (glyphs c) style = Except.error ()) →
      collectGlyphs glyphs style chars = Except.error () := by
  intro chars
  induction chars with
  | nil => rintro ⟨c, hc, _⟩; simp at hc
  | cons c0 rest ih =>
      rintro ⟨c, hc, herr⟩
      rw [List.mem_cons] at hc
      cases hg : glyphToOpenType c0 (glyphs c0) style with
      | error e =>
          cases e
          simp only [collectGlyphs, hg]
      | ok v =>
          have hrest : ∃ d ∈ rest, glyphToOpenType d (glyphs d) style = Except.error () := by
            rcases hc with rfl | hmem
            · rw [herr] at hg
              exact absurd hg (by simp)
            · exact ⟨c, hmem, herr⟩
          cases v with
          | none => simp only [collectGlyphs, hg]; exact ih hrest
          | some gl =>
              simp only [collectGlyphs, hg]
              rw [ih hrest]
              rfl

end FontMakerCore

/-- Claim C7 (amended): if bounding-box computation fails for some glyph
with artwork, the Font Assembler aborts the entire export, producing no
font document for the request; the failure that surfaces is the
propagated error, which carries no message naming the offending
character (no such message is built anywhere in the export path), and
the glyph state, which the export only reads, is unchanged. -/
theorem exportFont_bbox_failure_aborts (glyphs : Char → FontGeom.GlyphData)
    (style : FontGeom.FontStyle) (meta : FontMakerCore.FontMetadata)
    (kern : List ((Char × Char) × ℝ))
    (hfail : ∃ c ∈ FontMakerCore.GLYPHS, ∃ path, (glyphs c).svg = some path ∧
      FontGeom.getBoundingBox (FontGeom.transformPath path (glyphs c) style) = none) :
    FontMakerCore.exportFont glyphs style meta kern = Except.error () := by
  obtain ⟨c, hc, path, hpath, hbox⟩ := hfail
  have hcol : FontMakerCore.collectGlyphs glyphs style FontMakerCore.GLYPHS =
      Except.error () :=
    FontMakerCore.collectGlyphs_error glyphs style FontMakerCore.GLYPHS
      ⟨c, hc, FontMakerCore.glyphToOpenType_error_of_bbox_none c (glyphs c) style path
        hpath hbox⟩
  simp only [FontMakerCore.exportFont, hcol]

/-- Witness for the amended C7: with A's artwork a coordinate-free
outline, the whole export is an error and no document is produced. -/
theorem exportFont_bbox_failure_aborts_instance :
    FontMakerCore.exportFont (badOutlineOn 'A') FontGeom.FontStyle.regular failMeta [] =
      Except.error () :=
  exportFont_bbox_failure_aborts (badOutlineOn 'A') FontGeom.FontStyle.regular failMeta []
    ⟨'A', by decide, [FontGeom.PathCmd.close], rfl, rfl⟩

/-- Counterexample to claim C7 as stated: the surfaced failure names no
character.  The export failing on A's geometry and the export failing on
B's geometry produce the very same error value, so the error cannot
identify the offending character. -/
theorem exportFont_error_nameless_counterexample :
    FontMakerCore.exportFont (badOutlineOn 'A') FontGeom.FontStyle.regular failMeta [] =
        Except.error () ∧
      FontMakerCore.exportFont (badOutlineOn 'B') FontGeom.FontStyle.regular failMeta [] =
        Except.error () ∧
      FontMakerCore.exportFont (badOutlineOn 'A') FontGeom.FontStyle.regular failMeta [] =
        FontMakerCore.exportFont (badOutlineOn 'B') FontGeom.FontStyle.regular failMeta [] :=
  ⟨rfl, rfl, rfl⟩
